import Mathlib

/-!
Verification development for the `proof_of_heat` device-polling and
telemetry pipeline (`src/proof_of_heat/services/device_polling.py` and the
query surface used by `src/proof_of_heat/main.py`).

Python values are shallowly embedded as the inductive `Value`; Python
dicts become insertion-ordered association lists (Python dict assignment
updates in place, new keys append — mirrored by `updMetrics` and friends).
Python floats are modelled as rationals: the claims under study only
exercise decimal literals, so `float(...)` is embedded as a decimal-string
parser over ℚ (the non-finite spellings `inf`/`nan` and underscore digit
separators are outside the modelled fragment).
-/

/-- Embedding of the Python values that flow through the polling pipeline. -/
inductive Value where
  | vNone : Value
  | vStr : String → Value
  | vInt : Int → Value
  | vNum : ℚ → Value
  | vList : List Value → Value
  | vDict : List (String × Value) → Value

/-- Python truthiness for the embedded values (`if not host`, `x or default`). -/
def truthy : Value → Bool
  | .vNone => false
  | .vStr s => !(s = "")
  | .vInt n => !(n = 0)
  | .vNum q => !(q = 0)
  | .vList [] => false
  | .vList (_ :: _) => true
  | .vDict [] => false
  | .vDict (_ :: _) => true

/-- Dict lookup (`d[k]` / `d.get(k)`), first match in the association list. -/
def dlookup : List (String × Value) → String → Option Value
  | [], _ => none
  | (k, v) :: rest, key => if k = key then some v else dlookup rest key

/-- `d.get(k, default)`. -/
def getOr (d : List (String × Value)) (k : String) (dflt : Value) : Value :=
  match dlookup d k with
  | some v => v
  | none => dflt

/-- Sign parsing shared by the numeric-string parsers. Returns
(isNegative, remaining characters). -/
def parseSign : List Char → Bool × List Char
  | '+' :: rest => (false, rest)
  | '-' :: rest => (true, rest)
  | cs => (false, cs)

/-- Split a character list at the first occurrence of `sep`. -/
def splitFirst (sep : Char) : List Char → Option (List Char × List Char)
  | [] => none
  | c :: rest =>
    if c = sep then some ([], rest)
    else
      match splitFirst sep rest with
      | some (a, b) => some (c :: a, b)
      | none => none

def allDigits (cs : List Char) : Bool := cs.all (fun c => c.isDigit)

/-- The whitespace characters stripped by Python `str.strip()`. -/
def pySpace (c : Char) : Bool :=
  c = ' ' || c = '\t' || c = '\n' || c = '\x0d' || c = '\x0b' || c = '\x0c'

/-- Embedding of `str.strip()`: drop leading and trailing whitespace. -/
def trimChars (cs : List Char) : List Char :=
  ((cs.dropWhile pySpace).reverse.dropWhile pySpace).reverse

/-- Decimal value of a digit string (most significant first). -/
def digitsToNat (cs : List Char) : Nat :=
  cs.foldl (fun a c => a * 10 + (c.toNat - 48)) 0

/-- Syntactic shape of an accepted decimal float literal: sign, integer
digits, fractional digits (with their count), exponent. -/
structure FloatRepr where
  neg : Bool
  intPart : Nat
  fracPart : Nat
  fracLen : Nat
  exp : Int
deriving DecidableEq

/-- Character-level part of Python `float(s)` on decimal literals:
optional whitespace and sign, integer and/or fractional digits, optional
exponent. Returns the parsed shape, `none` on rejection. -/
def parseFloatRepr (s : String) : Option FloatRepr :=
  let cs := (trimChars s.data).map Char.toLower
  let sgn := parseSign cs
  let neg := sgn.1
  let body := sgn.2
  let mantExp : List Char × Option (List Char) :=
    match splitFirst 'e' body with
    | some (m, e) => (m, some e)
    | none => (body, none)
  let expVal : Option Int :=
    match mantExp.2 with
    | none => some 0
    | some ecs =>
      let esgn := parseSign ecs
      if esgn.2 ≠ [] ∧ allDigits esgn.2 then
        some (if esgn.1 then -(digitsToNat esgn.2 : Int) else (digitsToNat esgn.2 : Int))
      else none
  match expVal with
  | none => none
  | some e =>
    match splitFirst '.' mantExp.1 with
    | some (ip, fp) =>
      if (ip ≠ [] ∨ fp ≠ []) ∧ allDigits ip ∧ allDigits fp then
        some ⟨neg, digitsToNat ip, digitsToNat fp, fp.length, e⟩
      else none
    | none =>
      if mantExp.1 ≠ [] ∧ allDigits mantExp.1 then
        some ⟨neg, digitsToNat mantExp.1, 0, 0, e⟩
      else none

/-- The rational value denoted by a parsed float literal. -/
def floatReprVal (r : FloatRepr) : ℚ :=
  let m : ℚ := (r.intPart : ℚ) + (r.fracPart : ℚ) / (10 : ℚ) ^ r.fracLen
  let v : ℚ := if 0 ≤ r.exp then m * (10 : ℚ) ^ r.exp.toNat else m / (10 : ℚ) ^ (-r.exp).toNat
  if r.neg then -v else v

/-- Embedding of Python `float(s)` on decimal literals. -/
def parseFloat (s : String) : Option ℚ :=
  (parseFloatRepr s).map floatReprVal

/-- Embedding of Python `int(s)` on decimal literals. -/
def parseIntStr (s : String) : Option Int :=
  let cs := trimChars s.data
  let sgn := parseSign cs
  if sgn.2 ≠ [] ∧ allDigits sgn.2 then
    some (if sgn.1 then -(digitsToNat sgn.2 : Int) else (digitsToNat sgn.2 : Int))
  else none

/-- Truncation toward zero, the behaviour of Python `int(float)`. -/
def ratTrunc (q : ℚ) : Int :=
  if q < 0 then -(⌊-q⌋) else ⌊q⌋

namespace DevicePoller

/-- `_safe_float` (device_polling.py lines 359–365): `float(value)` with
`None`/`TypeError`/`ValueError` mapped to `none`. -/
def safe_float : Value → Option ℚ
  | .vNone => none
  | .vInt n => some (n : ℚ)
  | .vNum q => some q
  | .vStr s => parseFloat s
  | .vList _ => none
  | .vDict _ => none

/-- `_safe_int` (device_polling.py lines 367–373): `int(value)` with
`None`/`TypeError`/`ValueError` mapped to `none`. -/
def safe_int : Value → Option Int
  | .vNone => none
  | .vInt n => some n
  | .vNum q => some (ratTrunc q)
  | .vStr s => parseIntStr s
  | .vList _ => none
  | .vDict _ => none

/-- `_to_epoch_ms` (device_polling.py lines 375–383). The wall clock
`int(datetime.utcnow().timestamp() * 1000)` is passed in as `nowMs`. -/
def to_epoch_ms (whenTs : Value) (nowMs : Int) : Int :=
  match whenTs with
  | .vNone => nowMs
  | w =>
    match safe_int w with
    | none => nowMs
    | some value => if value < 1000000000000 then value * 1000 else value

/-- `key.replace("-", "_")` from `_extract_whatsminer_metrics`. -/
def renameKey (s : String) : String :=
  String.mk (s.data.map (fun c => if c = '-' then '_' else c))

/-- Python dict assignment `m[k] = x`: update in place if the key exists,
else append (insertion order preserved). -/
def updMetrics : List (String × ℚ) → String → ℚ → List (String × ℚ)
  | [], k, x => [(k, x)]
  | (k', x') :: rest, k, x =>
    if k' = k then (k', x) :: rest else (k', x') :: updMetrics rest k x

/-- Lookup in a metrics dict. -/
def mlookup : List (String × ℚ) → String → Option ℚ
  | [], _ => none
  | (k, x) :: rest, key => if k = key then some x else mlookup rest key

/-- First loop of `_extract_whatsminer_metrics` (lines 343–349): every
summary item except `board-temperature` is converted with `_safe_float`;
unconvertible values are skipped; surviving keys are renamed with
`key.replace("-", "_")`. -/
def scalarMetrics : List (String × Value) → List (String × ℚ) → List (String × ℚ)
  | [], acc => acc
  | (k, v) :: rest, acc =>
    if k = "board-temperature" then scalarMetrics rest acc
    else
      match safe_float v with
      | none => scalarMetrics rest acc
      | some x => scalarMetrics rest (updMetrics acc (renameKey k) x)

/-- Fuel-driven decimal conversion; `fuel` strictly exceeding `m` is enough
for termination, see `digitsToNat_natCharsGo`. -/
def natCharsGo : Nat → Nat → List Char
  | 0, _ => []
  | fuel + 1, m =>
    if m < 10 then [Char.ofNat (48 + m)]
    else natCharsGo fuel (m / 10) ++ [Char.ofNat (48 + m % 10)]

/-- Decimal string of a natural number — the embedding of Python `str(idx)`
in the f-string `f"board_temperature_IDX"`. -/
def natChars (n : Nat) : List Char := natCharsGo (n + 1) n

def natStr (n : Nat) : String := String.mk (natChars n)

def boardName (idx : Nat) : String := "board_temperature_" ++ natStr idx

/-- Second loop of `_extract_whatsminer_metrics` (lines 350–356):
`enumerate(board_temps)`, skipping unconvertible elements while keeping
each element's original index in the metric name. -/
def boardMetrics : List Value → Nat → List (String × ℚ) → List (String × ℚ)
  | [], _, acc => acc
  | v :: rest, idx, acc =>
    match safe_float v with
    | none => boardMetrics rest (idx + 1) acc
    | some x => boardMetrics rest (idx + 1) (updMetrics acc (boardName idx) x)

/-- `_extract_whatsminer_metrics` (device_polling.py lines 341–357): the
scalar loop over `summary.items()`, then the `enumerate` expansion when
`summary.get("board-temperature")` is a list. -/
def extract_whatsminer_metrics (summary : List (String × Value)) : List (String × ℚ) :=
  match dlookup summary "board-temperature" with
  | some (.vList boardTemps) => boardMetrics boardTemps 0 (scalarMetrics summary [])
  | _ => scalarMetrics summary []

/-- `DeviceKey` (device_polling.py lines 26–29). -/
structure DeviceKey where
  device_type : String
  device_id : String
deriving DecidableEq

/-- Decimal string of an integer. -/
def intStr (n : Int) : String :=
  if n < 0 then "-" ++ natStr (-n).toNat else natStr n.toNat

/-- Embedding of Python `str(x)` on the values the poller feeds it
(strings, integers, `None`); the rendering of floats, lists and dicts is
outside the modelled fragment and no claim depends on it. -/
def pyStr : Value → String
  | .vNone => "None"
  | .vStr s => s
  | .vInt n => intStr n
  | .vNum _ => "float"
  | .vList _ => "list"
  | .vDict _ => "dict"

/-- `int(v or dflt)`: Python `or` takes the default when `v` is falsy;
`none` models `int()` raising `TypeError`/`ValueError`. -/
def intOrExc (v : Value) (dflt : Int) : Option Int :=
  safe_int (if truthy v then v else .vInt dflt)

/-- The outcome of one adapter invocation: a normal return or a raised
exception. -/
inductive PollOutcome where
  | returned : Value → PollOutcome
  | raised : String → PollOutcome

/-- Result of `poll_whatsminer_device` together with how many times the
reachability probe (`_ping_host`) and the authenticated call
(`call_whatsminer`) were attempted during the invocation. -/
structure PollTrace where
  outcome : PollOutcome
  pings : Nat
  calls : Nat

/-- Environment of a whatsminer poll: the probe's behaviour, the
authenticated call's outcome, and the library constants `DEFAULT_PORT` /
`DEFAULT_TIMEOUT` imported from `whatsminer_cli` (values external to this
repository, so kept abstract). -/
structure WmEnv where
  ping : String → Int → Bool
  call : Except String Value
  defaultPort : Int
  defaultTimeout : Int

def missingHostDict (device : List (String × Value)) : Value :=
  .vDict [("error", .vStr "Missing Whatsminer host"), ("device_id", getOr device "device_id" .vNone)]

def pingFailedDict (device : List (String × Value)) (host : Value) : Value :=
  .vDict [("error", .vStr "Ping failed"), ("device_id", getOr device "device_id" .vNone),
          ("host", host)]

def missingCredsDict (device : List (String × Value)) : Value :=
  .vDict [("error", .vStr "Missing Whatsminer login/password"),
          ("device_id", getOr device "device_id" .vNone)]

def callFailedDict (device : List (String × Value)) (exc : String) : Value :=
  .vDict [("error", .vStr ("Whatsminer call failed: " ++ exc)),
          ("device_id", getOr device "device_id" .vNone)]

/-- `poll_whatsminer_device` (device_polling.py lines 129–186): check the
host, probe reachability, check credentials, then perform the
authenticated call. The port expression
`int(device.get("port", DEFAULT_PORT) or DEFAULT_PORT)` is evaluated
before the ping (line 136), outside any `try`, so its `ValueError`
escapes the function; it is re-evaluated with the same result for the
call (line 152). The timeout expression is evaluated among the call's
arguments inside the `try` (lines 149–158), so its `int()` failure is
caught by the `except` and yields the `Whatsminer call failed` dict
without the call being attempted. The persistence block guarded by
`self._db_path` (lines 167–185) does not change the returned value and is
modelled separately by `write_metrics` / `write_raw_event` consumers. -/
def poll_whatsminer_device (device : List (String × Value)) (env : WmEnv) : PollTrace :=
  let host := getOr device "host" .vNone
  if !(truthy host) then ⟨.returned (missingHostDict device), 0, 0⟩
  else
    match intOrExc (getOr device "port" (.vInt env.defaultPort)) env.defaultPort with
    | none => ⟨.raised "invalid port for int()", 0, 0⟩
    | some port =>
      if !(env.ping (pyStr host) port) then ⟨.returned (pingFailedDict device host), 1, 0⟩
      else
        let login := getOr device "login" .vNone
        let password := getOr device "password" .vNone
        if !(truthy login) || !(truthy password) then
          ⟨.returned (missingCredsDict device), 1, 0⟩
        else
          match intOrExc (getOr device "timeout" (.vInt env.defaultTimeout)) env.defaultTimeout with
          | none => ⟨.returned (callFailedDict device "invalid timeout for int()"), 1, 0⟩
          | some _ =>
            match env.call with
            | .error exc => ⟨.returned (callFailedDict device exc), 1, 1⟩
            | .ok response => ⟨.returned response, 1, 1⟩

/-- One `LatestStatus` entry: `{"timestamp": ..., "payload": ...}`
(device_polling.py lines 116–119). -/
structure LatestEntry where
  timestamp : String
  payload : Value

/-- What a device handler did during a tick, as observed by
`_poll_device`'s `try`/`except` boundary. -/
inductive HandlerOutcome where
  | ok : Value → HandlerOutcome
  | raises : String → HandlerOutcome

/-- Assignment `self._latest_payloads[key] = entry`. -/
def updLatest : List (DeviceKey × LatestEntry) → DeviceKey → LatestEntry →
    List (DeviceKey × LatestEntry)
  | [], k, e => [(k, e)]
  | (k', e') :: rest, k, e =>
    if k' = k then (k', e) :: rest else (k', e') :: updLatest rest k e

def lookupLatest : List (DeviceKey × LatestEntry) → DeviceKey → Option LatestEntry
  | [], _ => none
  | (k', e) :: rest, k => if k' = k then some e else lookupLatest rest k

/-- `_poll_device` (device_polling.py lines 103–119): invoke the handler;
an exception is logged and the method returns with the map untouched; a
normal return (success payload or error dict alike) overwrites the
device's entry. The wall-clock timestamp is passed in as `now`. -/
def poll_device (latest : List (DeviceKey × LatestEntry)) (key : DeviceKey)
    (outcome : HandlerOutcome) (now : String) : List (DeviceKey × LatestEntry) :=
  match outcome with
  | .raises _ => latest
  | .ok payload => updLatest latest key ⟨now, payload⟩

/-!
Aliasing model for `get_latest_payloads` (device_polling.py lines 96–101):
Python dicts are mutable heap objects, so the map's entry dicts live in an
explicit heap and `payload.copy()` is a shallow copy — a fresh dict whose
fields (including references to nested dicts) are copied verbatim.
-/

/-- A Python value at one dict level: an immutable leaf, or a reference to
another heap-allocated dict. -/
inductive PVal where
  | prim : Value → PVal
  | ref : Nat → PVal

abbrev HDict := List (String × PVal)

/-- The heap: addresses are list indices; allocation appends. -/
abbrev Heap := List HDict

def readH (h : Heap) (a : Nat) : HDict := (h.get? a).getD []

def lookupD : HDict → String → Option PVal
  | [], _ => none
  | (k, v) :: rest, key => if k = key then some v else lookupD rest key

def updD : HDict → String → PVal → HDict
  | [], k, v => [(k, v)]
  | (k', v') :: rest, k, v =>
    if k' = k then (k', v) :: rest else (k', v') :: updD rest k v

/-- In-place mutation `heap[a][k] = v` — what a consumer does when it
mutates a dict it was handed. -/
def setField (h : Heap) (a : Nat) (k : String) (v : PVal) : Heap :=
  h.set a (updD (readH h a) k v)

/-- `get_latest_payloads` (device_polling.py lines 96–101): for each
`(key, entryAddr)` of the internal map, allocate `payload.copy()` — a new
dict with the same (one-level) contents — and key the result by
`"device_type:device_id"`. Returns the heap after the allocations and the
returned map as name/address pairs. -/
def get_latest_payloads (h : Heap) :
    List (DeviceKey × Nat) → Heap × List (String × Nat)
  | [] => (h, [])
  | (k, e) :: rest =>
    let h1 := h ++ [readH h e]
    let r := get_latest_payloads h1 rest
    (r.1, (k.device_type ++ ":" ++ k.device_id, h.length) :: r.2)

/-- A snapshot's observable one-level contents: each returned name paired
with the entry dict it references. -/
def snapshotContents (h : Heap) (pairs : List (String × Nat)) : List (String × HDict) :=
  pairs.map (fun p => (p.1, readH h p.2))

/-- Read `entry["payload"][k]` through an entry address — a depth-two read
as the dashboard (or a mutating consumer) would perform it. -/
def payloadField (h : Heap) (entryAddr : Nat) (k : String) : Option PVal :=
  match lookupD (readH h entryAddr) "payload" with
  | some (.ref b) => lookupD (readH h b) k
  | _ => none

/-!
Scheduler construction (`start`, lines 41–83), shutdown (85–88) and
reconfiguration (`update_settings`, 90–94).
-/

/-- One scheduled job: `add_job(..., id=f"type-id", ...)` with its cron
interval (`CronTrigger(second="*/interval")`). -/
structure Job where
  jobId : String
  device_type : String
  device_id : String
  interval : Int
deriving DecidableEq

/-- `for device in devices.get(t, []) or []`: a falsy value yields no
iterations; a truthy non-list raises once element attributes are touched
(Python would raise `TypeError`/`AttributeError` in the loop body). -/
def iterDevices (v : Value) : Except String (List Value)  :=
  if !(truthy v) then .ok []
  else
    match v with
    | .vList l => .ok l
    | _ => .error "device list is not iterable as mappings"

/-- First loop pass (lines 50–56): pair each device entry with its type;
a non-dict entry raises `AttributeError` at `device.get`. -/
def collectDevices (t : String) : List Value →
    Except String (List (String × List (String × Value)))
  | [] => .ok []
  | v :: rest =>
    match v with
    | .vDict d =>
      match collectDevices t rest with
      | .error e => .error e
      | .ok l => .ok ((t, d) :: l)
    | _ => .error "device entry is not a mapping"

/-- Validation performed when `CronTrigger(second="*/INTERVAL")` is
constructed (line 67): APScheduler's seconds field spans 0–59, so the
expression is accepted exactly when the step lies in 1..59 — a negative
interval does not parse as a step expression, a zero step raises
`Increment must be higher than 0`, and a step above 59 exceeds the
field's total range; each raises `ValueError` out of `start`. -/
def cronTriggerSecondOk (interval : Int) : Bool :=
  decide (1 ≤ interval) && decide (interval ≤ 59)

/-- Second loop pass (lines 65–81): per-device interval
`int(device.get("refresh_interval", default_interval) or default_interval)`,
the `CronTrigger(second="*/INTERVAL")` construction with its seconds-step
validation, and job id `f"device_type-device_id"`. -/
def buildJobs (defaultInterval : Int) :
    List (String × List (String × Value)) → Except String (List Job)
  | [] => .ok []
  | (t, d) :: rest =>
    match intOrExc (getOr d "refresh_interval" (.vInt defaultInterval)) defaultInterval with
    | none => .error "invalid refresh_interval for int()"
    | some interval =>
      if !(cronTriggerSecondOk interval) then
        .error "ValueError: invalid cron second step"
      else
        match buildJobs defaultInterval rest with
        | .error e => .error e
        | .ok js =>
          let did := pyStr (getOr d "device_id" (.vStr "unknown"))
          .ok (Job.mk (t ++ "-" ++ did) t did interval :: js)

/-- `add_job(..., replace_existing=True)`: a job with an existing id
replaces it, otherwise the job is appended. -/
def addJob : List Job → Job → List Job
  | [], j => [j]
  | j' :: rest, j => if j'.jobId = j.jobId then j :: rest else j' :: addJob rest j

/-- `start` (device_polling.py lines 41–83), up to the set of jobs handed
to the `BackgroundScheduler`: `.ok none` means start returned without
creating a scheduler (malformed `devices` or no configured devices);
`.ok (some jobs)` means a scheduler was created holding exactly `jobs`;
`.error` models an uncaught exception. -/
def startJobs (settings : Value) : Except String (Option (List Job)) :=
  let devices : Value :=
    match settings with
    | .vDict s => getOr s "devices" (.vDict [])
    | _ => .vDict []
  match devices with
  | .vDict dd =>
    match intOrExc (getOr dd "refresh_interval" (.vInt 30)) 30 with
    | none => .error "invalid refresh_interval for int()"
    | some defaultInterval =>
      match iterDevices (getOr dd "zont" (.vList [])) with
      | .error e => .error e
      | .ok zvals =>
        match collectDevices "zont" zvals with
        | .error e => .error e
        | .ok zjobs =>
          match iterDevices (getOr dd "whatsminer" (.vList [])) with
          | .error e => .error e
          | .ok wvals =>
            match collectDevices "whatsminer" wvals with
            | .error e => .error e
            | .ok wjobs =>
              match zjobs ++ wjobs with
              | [] => .ok none
              | pollJobs =>
                match buildJobs defaultInterval pollJobs with
                | .error e => .error e
                | .ok js => .ok (some (js.foldl addJob []))
  | _ => .ok none

/-- The poller's configuration-facing state: `self._settings` and
`self._scheduler` (`none` when no scheduler object exists). -/
structure PollerState where
  settings : Value
  scheduler : Option (List Job)

/-- `start` as a state transformer: on the early-return paths
(`.ok none`) `self._scheduler` is left untouched. -/
def start (s : PollerState) : Except String PollerState :=
  match startJobs s.settings with
  | .error e => .error e
  | .ok none => .ok s
  | .ok (some js) => .ok { s with scheduler := some js }

/-- `shutdown` (lines 85–88): drop the scheduler. -/
def shutdown (s : PollerState) : PollerState := { s with scheduler := none }

/-- `update_settings` (lines 90–94): store the new settings; then, only
if a scheduler currently exists, shut down and start again. -/
def update_settings (s : PollerState) (newSettings : Value) : Except String PollerState :=
  let s1 : PollerState := { settings := newSettings, scheduler := s.scheduler }
  match s1.scheduler with
  | none => .ok s1
  | some _ => start (shutdown s1)

/-!
Metric store (`_write_metrics`, lines 254–293) and the range-query
surface consumed by `main.py`.
-/

/-- One row of the `metrics` table. -/
structure MetricRow where
  ts : Int
  device_type : String
  device_id : String
  metric : String
  value : ℚ
deriving DecidableEq

/-- `_write_metrics` (lines 254–293): appends one row per extracted
metric; an empty metric set writes nothing (`if not ... metrics: return`). -/
def write_metrics (store : List MetricRow) (tsMs : Int) (dt did : String)
    (metrics : List (String × ℚ)) : List MetricRow :=
  match metrics with
  | [] => store
  | _ => store ++ metrics.map (fun p => MetricRow.mk tsMs dt did p.1 p.2)

def insertByTs (r : Int × ℚ) : List (Int × ℚ) → List (Int × ℚ)
  | [] => [r]
  | x :: rest => if r.1 ≤ x.1 then r :: x :: rest else x :: insertByTs r rest

def sortByTs : List (Int × ℚ) → List (Int × ℚ)
  | [] => []
  | x :: rest => insertByTs x (sortByTs rest)

/-- Whether a row matches a range query. -/
def rowMatches (r : MetricRow) (dt did metric : String)
    (startMs endMs : Option Int) : Bool :=
  r.device_type == dt && r.device_id == did && r.metric == metric &&
    (match startMs with | none => true | some s => decide (s ≤ r.ts)) &&
    (match endMs with | none => true | some e => decide (r.ts ≤ e))

/-- Modelled from the spec: `DevicePoller.get_metric_series` is invoked by
`main.py` (`get_metric_data`, lines 632–651) but its implementation is not
under `src/`. Spec §4.1/§6: range query by
`(device_type, device_id, metric, start_ms?, end_ms?)` returning an
ordered-by-time sequence of `(ts, value)` pairs, bounds inclusive; §4.1:
a query for an unknown device/metric returns an empty sequence, not an
error. -/
def get_metric_series (store : List MetricRow) (dt did metric : String)
    (startMs endMs : Option Int) : List (Int × ℚ) :=
  sortByTs ((store.filter (fun r => rowMatches r dt did metric startMs endMs)).map
    (fun r => (r.ts, r.value)))

end DevicePoller

/-!
Helper lemmas shared by the claim theorems.
-/

namespace DevicePoller

theorem digitsToNat_append (xs : List Char) (c : Char) :
    digitsToNat (xs ++ [c]) = digitsToNat xs * 10 + (c.toNat - 48) := by
  simp [digitsToNat, List.foldl_append]

theorem digitVal (d : Nat) (hd : d < 10) : (Char.ofNat (48 + d)).toNat - 48 = d := by
  interval_cases d <;> decide

theorem digitsToNat_natCharsGo :
    ∀ fuel m, m < fuel → digitsToNat (natCharsGo fuel m) = m := by
  intro fuel
  induction fuel with
  | zero => intro m hm; omega
  | succ fuel ih =>
    intro m hm
    rw [natCharsGo]
    by_cases h : m < 10
    · rw [if_pos h]
      have hv := digitVal m h
      simp [digitsToNat]
      omega
    · rw [if_neg h]
      rw [digitsToNat_append]
      have hd : m / 10 < m := Nat.div_lt_self (by omega) (by omega)
      rw [ih (m / 10) (by omega)]
      have hv := digitVal (m % 10) (Nat.mod_lt _ (by omega))
      rw [hv]
      omega

theorem digitsToNat_natChars (n : Nat) : digitsToNat (natChars n) = n :=
  digitsToNat_natCharsGo (n + 1) n (Nat.lt_succ_self n)

theorem natStr_injective {a b : Nat} (h : natStr a = natStr b) : a = b := by
  have h1 : natChars a = natChars b := by
    have := congrArg String.data h
    simpa [natStr] using this
  have h2 := congrArg digitsToNat h1
  rwa [digitsToNat_natChars, digitsToNat_natChars] at h2

theorem boardName_injective {i j : Nat} (h : boardName i = boardName j) : i = j := by
  have h1 : "board_temperature_".data ++ (natStr i).data
      = "board_temperature_".data ++ (natStr j).data := congrArg String.data h
  have h2 : (natStr i).data = (natStr j).data := by
    exact List.append_cancel_left h1
  have h3 : natChars i = natChars j := h2
  have h4 := congrArg digitsToNat h3
  rwa [digitsToNat_natChars, digitsToNat_natChars] at h4

theorem mlookup_updMetrics_self (m : List (String × ℚ)) (k : String) (x : ℚ) :
    mlookup (updMetrics m k x) k = some x := by
  induction m with
  | nil => simp [updMetrics, mlookup]
  | cons p rest ih =>
    obtain ⟨k', x'⟩ := p
    by_cases h : k' = k
    · simp [updMetrics, h, mlookup]
    · simp [updMetrics, h, mlookup, ih]

theorem mlookup_updMetrics_ne (m : List (String × ℚ)) (k : String) (x : ℚ)
    (n : String) (h : n ≠ k) : mlookup (updMetrics m k x) n = mlookup m n := by
  induction m with
  | nil => simp [updMetrics, mlookup, Ne.symm h]
  | cons p rest ih =>
    obtain ⟨k', x'⟩ := p
    by_cases h' : k' = k
    · subst h'
      simp [updMetrics, mlookup, Ne.symm h]
    · simp [updMetrics, h', mlookup, ih]

theorem mlookup_updMetrics_isSome (m : List (String × ℚ)) (k : String) (x : ℚ)
    (n : String) :
    (mlookup (updMetrics m k x) n).isSome ↔ n = k ∨ (mlookup m n).isSome := by
  by_cases h : n = k
  · subst h
    simp [mlookup_updMetrics_self]
  · simp [mlookup_updMetrics_ne m k x n h, h]

theorem boardMetrics_lookup_out :
    ∀ (l : List Value) (idx : Nat) (acc : List (String × ℚ)) (k : String),
      (∀ j v, l.get? j = some v → (safe_float v).isSome → k ≠ boardName (idx + j)) →
      mlookup (boardMetrics l idx acc) k = mlookup acc k := by
  intro l
  induction l with
  | nil => intro idx acc k _; rfl
  | cons w rest ih =>
    intro idx acc k hk
    rw [boardMetrics]
    cases hw : safe_float w with
    | none =>
      exact ih (idx + 1) acc k (fun j v hj hs => by
        have := hk (j + 1) v (by simpa using hj) hs
        simpa [Nat.add_assoc, Nat.add_comm 1 j] using this)
    | some x =>
      rw [ih (idx + 1) (updMetrics acc (boardName idx) x) k (fun j v hj hs => by
        have := hk (j + 1) v (by simpa using hj) hs
        simpa [Nat.add_assoc, Nat.add_comm 1 j] using this)]
      exact mlookup_updMetrics_ne acc (boardName idx) x k
        (hk 0 w (by simp) (by simp [hw]))

theorem boardMetrics_lookup_at :
    ∀ (l : List Value) (idx : Nat) (acc : List (String × ℚ)) (i : Nat) (v : Value) (x : ℚ),
      l.get? i = some v → safe_float v = some x →
      mlookup (boardMetrics l idx acc) (boardName (idx + i)) = some x := by
  intro l
  induction l with
  | nil => intro idx acc i v x hi; simp at hi
  | cons w rest ih =>
    intro idx acc i v x hi hx
    rw [boardMetrics]
    cases i with
    | zero =>
      simp at hi
      subst hi
      rw [hx]
      rw [boardMetrics_lookup_out rest (idx + 1) _ (boardName (idx + 0)) (fun j v' hj hs => by
        intro heq
        have := boardName_injective heq
        omega)]
      simpa using mlookup_updMetrics_self acc (boardName idx) x
    | succ i' =>
      simp only [List.get?_cons_succ] at hi
      have heq : idx + (i' + 1) = (idx + 1) + i' := by omega
      rw [heq]
      cases hw : safe_float w with
      | none => exact ih (idx + 1) acc i' v x hi hx
      | some y => exact ih (idx + 1) (updMetrics acc (boardName idx) y) i' v x hi hx

theorem boardMetrics_mono :
    ∀ (l : List Value) (idx : Nat) (acc : List (String × ℚ)) (n : String),
      (mlookup acc n).isSome → (mlookup (boardMetrics l idx acc) n).isSome := by
  intro l
  induction l with
  | nil => intro idx acc n h; exact h
  | cons w rest ih =>
    intro idx acc n h
    rw [boardMetrics]
    cases hw : safe_float w with
    | none => exact ih (idx + 1) acc n h
    | some x =>
      exact ih (idx + 1) _ n ((mlookup_updMetrics_isSome acc (boardName idx) x n).mpr
        (Or.inr h))

theorem boardMetrics_sound :
    ∀ (l : List Value) (idx : Nat) (acc : List (String × ℚ)) (n : String),
      (mlookup (boardMetrics l idx acc) n).isSome →
      (mlookup acc n).isSome ∨
        ∃ j v, l.get? j = some v ∧ (safe_float v).isSome ∧ n = boardName (idx + j) := by
  intro l
  induction l with
  | nil => intro idx acc n h; exact Or.inl h
  | cons w rest ih =>
    intro idx acc n h
    rw [boardMetrics] at h
    cases hw : safe_float w with
    | none =>
      rw [hw] at h
      rcases ih (idx + 1) acc n h with h' | ⟨j, v, hj, hs, hn⟩
      · exact Or.inl h'
      · exact Or.inr ⟨j + 1, v, by simpa using hj, hs, by rw [hn]; congr 1; omega⟩
    | some x =>
      rw [hw] at h
      rcases ih (idx + 1) _ n h with h' | ⟨j, v, hj, hs, hn⟩
      · rcases (mlookup_updMetrics_isSome acc (boardName idx) x n).mp h' with h'' | h''
        · exact Or.inr ⟨0, w, by simp, by simp [hw], by simpa using h''⟩
        · exact Or.inl h''
      · exact Or.inr ⟨j + 1, v, by simpa using hj, hs, by rw [hn]; congr 1; omega⟩

theorem scalarMetrics_mono :
    ∀ (summary : List (String × Value)) (acc : List (String × ℚ)) (n : String),
      (mlookup acc n).isSome → (mlookup (scalarMetrics summary acc) n).isSome := by
  intro summary
  induction summary with
  | nil => intro acc n h; exact h
  | cons p rest ih =>
    intro acc n h
    obtain ⟨k, v⟩ := p
    rw [scalarMetrics]
    by_cases hk : k = "board-temperature"
    · rw [if_pos hk]; exact ih acc n h
    · rw [if_neg hk]
      cases hv : safe_float v with
      | none => exact ih acc n h
      | some x =>
        exact ih _ n ((mlookup_updMetrics_isSome acc (renameKey k) x n).mpr (Or.inr h))

theorem scalarMetrics_present :
    ∀ (summary : List (String × Value)) (acc : List (String × ℚ))
      (k : String) (v : Value),
      (k, v) ∈ summary → k ≠ "board-temperature" → (safe_float v).isSome →
      (mlookup (scalarMetrics summary acc) (renameKey k)).isSome := by
  intro summary
  induction summary with
  | nil => intro acc k v hm; simp at hm
  | cons p rest ih =>
    intro acc k v hm hk hs
    obtain ⟨k', v'⟩ := p
    rcases List.mem_cons.mp hm with heq | hm'
    · rw [Prod.mk.injEq] at heq
      obtain ⟨hk2, hv2⟩ := heq
      subst hk2
      subst hv2
      rw [scalarMetrics, if_neg hk]
      cases hv : safe_float v with
      | none => simp [hv] at hs
      | some x =>
        exact scalarMetrics_mono rest _ _
          ((mlookup_updMetrics_isSome acc (renameKey k) x (renameKey k)).mpr (Or.inl rfl))
    · rw [scalarMetrics]
      by_cases hk' : k' = "board-temperature"
      · rw [if_pos hk']; exact ih acc k v hm' hk hs
      · rw [if_neg hk']
        cases hv : safe_float v' with
        | none => exact ih acc k v hm' hk hs
        | some x => exact ih _ k v hm' hk hs

theorem scalarMetrics_sound :
    ∀ (summary : List (String × Value)) (acc : List (String × ℚ)) (n : String),
      (mlookup (scalarMetrics summary acc) n).isSome →
      (mlookup acc n).isSome ∨
        ∃ k v, (k, v) ∈ summary ∧ k ≠ "board-temperature" ∧ (safe_float v).isSome ∧
          renameKey k = n := by
  intro summary
  induction summary with
  | nil => intro acc n h; exact Or.inl h
  | cons p rest ih =>
    intro acc n h
    obtain ⟨k, v⟩ := p
    rw [scalarMetrics] at h
    by_cases hk : k = "board-temperature"
    · rw [if_pos hk] at h
      rcases ih acc n h with h' | ⟨k', v', hm, hk', hs, hn⟩
      · exact Or.inl h'
      · exact Or.inr ⟨k', v', List.mem_cons_of_mem _ hm, hk', hs, hn⟩
    · rw [if_neg hk] at h
      cases hv : safe_float v with
      | none =>
        rw [hv] at h
        rcases ih acc n h with h' | ⟨k', v', hm, hk', hs, hn⟩
        · exact Or.inl h'
        · exact Or.inr ⟨k', v', List.mem_cons_of_mem _ hm, hk', hs, hn⟩
      | some x =>
        rw [hv] at h
        rcases ih _ n h with h' | ⟨k', v', hm, hk', hs, hn⟩
        · rcases (mlookup_updMetrics_isSome acc (renameKey k) x n).mp h' with h'' | h''
          · exact Or.inr ⟨k, v, List.mem_cons_self .., hk, by simp [hv], h''.symm⟩
          · exact Or.inl h''
        · exact Or.inr ⟨k', v', List.mem_cons_of_mem _ hm, hk', hs, hn⟩

theorem lookupLatest_updLatest_self (m : List (DeviceKey × LatestEntry))
    (k : DeviceKey) (e : LatestEntry) :
    lookupLatest (updLatest m k e) k = some e := by
  induction m with
  | nil => simp [updLatest, lookupLatest]
  | cons p rest ih =>
    obtain ⟨k', e'⟩ := p
    by_cases h : k' = k
    · simp [updLatest, h, lookupLatest]
    · simp [updLatest, h, lookupLatest, ih]

theorem lookupLatest_updLatest_ne (m : List (DeviceKey × LatestEntry))
    (k : DeviceKey) (e : LatestEntry) (n : DeviceKey) (h : n ≠ k) :
    lookupLatest (updLatest m k e) n = lookupLatest m n := by
  induction m with
  | nil => simp [updLatest, lookupLatest, Ne.symm h]
  | cons p rest ih =>
    obtain ⟨k', e'⟩ := p
    by_cases h' : k' = k
    · subst h'
      simp [updLatest, lookupLatest, Ne.symm h]
    · simp [updLatest, h', lookupLatest, ih]

theorem readH_append (h : Heap) (ext : List HDict) (a : Nat) (ha : a < h.length) :
    readH (h ++ ext) a = readH h a := by
  simp [readH, List.getElem?_append_left ha]

theorem get_latest_payloads_heap_ext :
    ∀ (latest : List (DeviceKey × Nat)) (h : Heap),
      ∃ ext, (get_latest_payloads h latest).1 = h ++ ext := by
  intro latest
  induction latest with
  | nil => intro h; exact ⟨[], by simp [get_latest_payloads]⟩
  | cons p rest ih =>
    intro h
    obtain ⟨k, e⟩ := p
    obtain ⟨ext, hext⟩ := ih (h ++ [readH h e])
    exact ⟨[readH h e] ++ ext, by simp [get_latest_payloads, hext]⟩

theorem get_latest_payloads_fresh :
    ∀ (latest : List (DeviceKey × Nat)) (h : Heap) (p : String × Nat),
      p ∈ (get_latest_payloads h latest).2 → h.length ≤ p.2 := by
  intro latest
  induction latest with
  | nil => intro h p hp; simp [get_latest_payloads] at hp
  | cons q rest ih =>
    intro h p hp
    obtain ⟨k, e⟩ := q
    rw [get_latest_payloads] at hp
    rcases List.mem_cons.mp hp with heq | hm
    · subst heq; simp
    · have := ih (h ++ [readH h e]) p hm
      simp at this
      omega

theorem snapshotContents_spec :
    ∀ (latest : List (DeviceKey × Nat)) (h : Heap),
      (∀ p ∈ latest, p.2 < h.length) →
      snapshotContents (get_latest_payloads h latest).1 (get_latest_payloads h latest).2 =
        latest.map (fun q => (q.1.device_type ++ ":" ++ q.1.device_id, readH h q.2)) := by
  intro latest
  induction latest with
  | nil => intro h _; simp [get_latest_payloads, snapshotContents]
  | cons q rest ih =>
    intro h hwf
    obtain ⟨k, e⟩ := q
    have he : e < h.length := hwf (k, e) (List.mem_cons_self ..)
    rw [get_latest_payloads]
    simp only [snapshotContents, List.map_cons]
    rw [List.cons.injEq]
    constructor
    · obtain ⟨ext, hext⟩ := get_latest_payloads_heap_ext rest (h ++ [readH h e])
      have hr : readH (h ++ [readH h e] ++ ext) h.length = readH h e := by
        simp only [readH, List.get?_eq_getElem?, List.append_assoc]
        rw [List.getElem?_append_right (Nat.le_refl h.length)]
        simp
      rw [hext, hr]
    · have hwf' : ∀ p ∈ rest, p.2 < (h ++ [readH h e]).length := by
        intro p hp
        have := hwf p (List.mem_cons_of_mem _ hp)
        simp
        omega
      have := ih (h ++ [readH h e]) hwf'
      rw [snapshotContents] at this
      rw [this]
      apply List.map_congr_left
      intro q hq
      have hq2 : q.2 < h.length := hwf q (List.mem_cons_of_mem _ hq)
      rw [readH_append h [readH h e] q.2 hq2]

theorem readH_setField_lt (h : Heap) (ext : List HDict) (a : Nat) (k : String)
    (v : PVal) (b : Nat) (ha : h.length ≤ a) (hb : b < h.length) :
    readH (setField (h ++ ext) a k v) b = readH h b := by
  have hne : a ≠ b := by omega
  simp [setField, readH, List.getElem?_set_ne hne, List.getElem?_append_left hb]

theorem mem_insertByTs (r x : Int × ℚ) (l : List (Int × ℚ)) :
    x ∈ insertByTs r l ↔ x = r ∨ x ∈ l := by
  induction l with
  | nil => simp [insertByTs]
  | cons y rest ih =>
    rw [insertByTs]
    by_cases h : r.1 ≤ y.1
    · simp [h]
    · simp only [if_neg h, List.mem_cons, ih]
      tauto

theorem mem_sortByTs (x : Int × ℚ) (l : List (Int × ℚ)) :
    x ∈ sortByTs l ↔ x ∈ l := by
  induction l with
  | nil => simp [sortByTs]
  | cons y rest ih =>
    rw [sortByTs, mem_insertByTs]
    simp [ih]

theorem extract_board_lookup_at (summary : List (String × Value)) (l : List Value)
    (i : Nat) (v : Value) (x : ℚ)
    (hb : dlookup summary "board-temperature" = some (.vList l))
    (hi : l.get? i = some v) (hx : safe_float v = some x) :
    mlookup (extract_whatsminer_metrics summary) (boardName i) = some x := by
  rw [extract_whatsminer_metrics, hb]
  have := boardMetrics_lookup_at l 0 (scalarMetrics summary []) i v x hi hx
  simpa using this

theorem safe_float_42_5 : safe_float (.vStr "42.5") = some (85 / 2 : ℚ) := by
  have h0 : parseFloatRepr "42.5" = some ⟨false, 42, 5, 1, 0⟩ := by decide
  rw [safe_float, parseFloat, h0, Option.map_some']
  norm_num [floatReprVal]

theorem extract_round_trip_aux (v : Value) (q : ℚ) (hv : safe_float v = some q) :
    extract_whatsminer_metrics
      [("temperature", v), ("fan-speed", .vInt 10),
       ("board-temperature", .vList [.vInt 60, .vInt 61, .vStr "bad"])] =
    [("temperature", q), ("fan_speed", 10), ("board_temperature_0", 60),
     ("board_temperature_1", 61)] := by
  have hb : safe_float (.vStr "bad") = none := by decide
  have h10 : safe_float (.vInt 10) = some (10 : ℚ) := by decide
  have h60 : safe_float (.vInt 60) = some (60 : ℚ) := by decide
  have h61 : safe_float (.vInt 61) = some (61 : ℚ) := by decide
  have r1 : renameKey "temperature" = "temperature" := by decide
  have r2 : renameKey "fan-speed" = "fan_speed" := by decide
  have bn0 : boardName 0 = "board_temperature_0" := by decide
  have bn1 : boardName 1 = "board_temperature_1" := by decide
  have n1 : ("temperature" : String) ≠ "board-temperature" := by decide
  have n2 : ("fan-speed" : String) ≠ "board-temperature" := by decide
  have n3 : ("temperature" : String) ≠ "fan_speed" := by decide
  have n4 : ("temperature" : String) ≠ "board_temperature_0" := by decide
  have n5 : ("fan_speed" : String) ≠ "board_temperature_0" := by decide
  have n6 : ("temperature" : String) ≠ "board_temperature_1" := by decide
  have n7 : ("fan_speed" : String) ≠ "board_temperature_1" := by decide
  have n8 : ("board_temperature_0" : String) ≠ "board_temperature_1" := by decide
  simp only [extract_whatsminer_metrics, scalarMetrics, boardMetrics, dlookup,
    updMetrics, hv, hb, h10, h60, h61, r1, r2, bn0, bn1, n1, n2, n3, n4, n5, n6, n7, n8,
    if_true, if_false, ite_true, ite_false, ne_eq, reduceIte]

/-- Claim C3 (corrected statement): `_extract_whatsminer_metrics` on the
summary with `temperature = "42.5"`, `fan-speed = 10` and
`board-temperature = [60, 61, "bad"]` yields exactly
`temperature = 42.5, fan_speed = 10, board_temperature_0 = 60,
board_temperature_1 = 61`; in general every produced metric originates
from a field whose value converts with `_safe_float` (unconvertible
fields are skipped), every convertible scalar field outside
`board-temperature` appears under its key with hyphens (not all
non-alphanumeric characters) replaced by underscores, and a
`board-temperature` list is expanded into one metric per convertible
list index. -/
theorem claim_C3_normalizer :
    (extract_whatsminer_metrics
        [("temperature", .vStr "42.5"), ("fan-speed", .vInt 10),
         ("board-temperature", .vList [.vInt 60, .vInt 61, .vStr "bad"])] =
      [("temperature", (85 / 2 : ℚ)), ("fan_speed", 10),
       ("board_temperature_0", 60), ("board_temperature_1", 61)])
  ∧ (∀ summary n, (mlookup (extract_whatsminer_metrics summary) n).isSome →
      (∃ k v, (k, v) ∈ summary ∧ k ≠ "board-temperature" ∧ (safe_float v).isSome ∧
        renameKey k = n) ∨
      (∃ l j v, dlookup summary "board-temperature" = some (.vList l) ∧
        l.get? j = some v ∧ (safe_float v).isSome ∧ n = boardName j))
  ∧ (∀ summary k v, (k, v) ∈ summary → k ≠ "board-temperature" →
      (safe_float v).isSome →
      (mlookup (extract_whatsminer_metrics summary) (renameKey k)).isSome)
  ∧ (∀ summary l i v x, dlookup summary "board-temperature" = some (.vList l) →
      l.get? i = some v → safe_float v = some x →
      mlookup (extract_whatsminer_metrics summary) (boardName i) = some x) := by
  refine ⟨extract_round_trip_aux _ _ safe_float_42_5, ?_, ?_, ?_⟩
  · intro summary n h
    rw [extract_whatsminer_metrics] at h
    split at h
    · next l hb =>
      rcases boardMetrics_sound _ 0 _ n h with h' | ⟨j, v, hj, hs, hn⟩
      · rcases scalarMetrics_sound summary [] n h' with h'' | ⟨k, v, hm, hk, hs, hn⟩
        · simp [mlookup] at h''
        · exact Or.inl ⟨k, v, hm, hk, hs, hn⟩
      · exact Or.inr ⟨_, j, v, hb, hj, hs, by simpa using hn⟩
    · next =>
      rcases scalarMetrics_sound summary [] n h with h'' | ⟨k, v, hm, hk, hs, hn⟩
      · simp [mlookup] at h''
      · exact Or.inl ⟨k, v, hm, hk, hs, hn⟩
  · intro summary k v hm hk hs
    rw [extract_whatsminer_metrics]
    split
    · next l hb => exact boardMetrics_mono _ 0 _ _ (scalarMetrics_present summary [] k v hm hk hs)
    · next => exact scalarMetrics_present summary [] k v hm hk hs
  · intro summary l i v x hb hi hx
    exact extract_board_lookup_at summary l i v x hb hi hx

/-- Claim C3 counterexample: the claim as stated promises renaming of all
non-alphanumeric characters, but `_extract_whatsminer_metrics` replaces
only hyphens: a numeric field named `"a.b"` keeps its dot (the metric
`"a_b"` does not exist). -/
theorem claim_C3_counterexample :
    extract_whatsminer_metrics [("a.b", .vInt 1)] = [("a.b", 1)] ∧
    mlookup (extract_whatsminer_metrics [("a.b", .vInt 1)]) "a_b" = none := by
  constructor
  · decide
  · decide

/-- Claim C3 witness: the universally quantified parts of
`claim_C3_normalizer` applied at a concrete summary. -/
theorem claim_C3_witness :
    (mlookup (extract_whatsminer_metrics [("power", .vInt 3)]) (renameKey "power")).isSome := by
  exact claim_C3_normalizer.2.2.1 [("power", .vInt 3)] "power" (.vInt 3)
    (List.mem_singleton.mpr rfl) (by decide) (by rfl)

/-- Claim C10: when the `board-temperature` value is a list, each metric
name `board_temperature_IDX` uses the element's original list index, so a
non-convertible middle element leaves a gap rather than compacting:
`[60, "bad", 61]` yields indices 0 and 2 and no index 1; in general a
convertible element at index `i` is stored under `boardName i`, and for a
summary holding only the board list, an unconvertible element at index
`i` produces no metric named `boardName i`. -/
theorem claim_C10_board_indices :
    (extract_whatsminer_metrics
        [("board-temperature", .vList [.vInt 60, .vStr "bad", .vInt 61])] =
      [("board_temperature_0", 60), ("board_temperature_2", 61)])
  ∧ (∀ summary l i v x, dlookup summary "board-temperature" = some (.vList l) →
      l.get? i = some v → safe_float v = some x →
      mlookup (extract_whatsminer_metrics summary) (boardName i) = some x)
  ∧ (∀ l i v, l.get? i = some v → safe_float v = none →
      mlookup (extract_whatsminer_metrics [("board-temperature", .vList l)])
        (boardName i) = none) := by
  refine ⟨by decide, ?_, ?_⟩
  · intro summary l i v x hb hi hx
    exact extract_board_lookup_at summary l i v x hb hi hx
  · intro l i v hi hv
    have hb : dlookup [("board-temperature", Value.vList l)] "board-temperature"
        = some (.vList l) := by simp [dlookup]
    rw [extract_whatsminer_metrics, hb]
    have hs : scalarMetrics [("board-temperature", Value.vList l)] [] = [] := by
      simp [scalarMetrics]
    rw [hs]
    have := boardMetrics_lookup_out l 0 [] (boardName i) (fun j v' hj hjs => by
      intro heq
      have hij := boardName_injective heq
      have hij' : i = j := by omega
      subst hij'
      rw [hi] at hj
      injection hj with hv'
      subst hv'
      rw [hv] at hjs
      simp at hjs)
    simpa [mlookup] using this

/-- Claim C10 witness: the quantified parts of `claim_C10_board_indices`
at the concrete list `[60, "bad", 61]`. -/
theorem claim_C10_witness :
    mlookup (extract_whatsminer_metrics
      [("board-temperature", .vList [.vInt 60, .vStr "bad", .vInt 61])])
      (boardName 2) = some 61 := by
  exact claim_C10_board_indices.2.1
    [("board-temperature", .vList [.vInt 60, .vStr "bad", .vInt 61])]
    [.vInt 60, .vStr "bad", .vInt 61] 2 (.vInt 61) 61 (by rfl) (by rfl) (by rfl)

/-- Claim C4: `_to_epoch_ms` multiplies a convertible integer below
10^12 by 1000 (epoch seconds auto-detected), passes a convertible integer
at or above 10^12 through unchanged, and falls back to the current
wall-clock milliseconds (`nowMs`) for `None` or unconvertible values. -/
theorem claim_C4_to_epoch_ms :
    (∀ w n now, safe_int w = some n → n < 1000000000000 →
      to_epoch_ms w now = n * 1000)
  ∧ (∀ w n now, safe_int w = some n → 1000000000000 ≤ n →
      to_epoch_ms w now = n)
  ∧ (∀ now, to_epoch_ms .vNone now = now)
  ∧ (∀ w now, safe_int w = none → to_epoch_ms w now = now) := by
  refine ⟨?_, ?_, fun _ => rfl, ?_⟩
  · intro w n now hw hn
    cases w <;> simp [safe_int] at hw <;>
      simp [to_epoch_ms, safe_int, hw, if_pos hn] <;> try omega
  · intro w n now hw hn
    cases w <;> simp [safe_int] at hw <;>
      simp [to_epoch_ms, safe_int, hw] <;> try omega
  · intro w now hw
    cases w <;> simp [safe_int] at hw <;> simp [to_epoch_ms, safe_int, hw]

/-- Claim C4 witness: `claim_C4_to_epoch_ms` at 1700000000 (seconds),
1700000000000 (already ms), `None`, and the unconvertible string "oops". -/
theorem claim_C4_witness :
    to_epoch_ms (.vInt 1700000000) 77 = 1700000000000 ∧
    to_epoch_ms (.vInt 1700000000000) 77 = 1700000000000 ∧
    to_epoch_ms .vNone 77 = 77 ∧
    to_epoch_ms (.vStr "oops") 77 = 77 := by
  refine ⟨?_, ?_, claim_C4_to_epoch_ms.2.2.1 77, ?_⟩
  · exact claim_C4_to_epoch_ms.1 (.vInt 1700000000) 1700000000 77 (by rfl) (by decide)
  · exact claim_C4_to_epoch_ms.2.1 (.vInt 1700000000000) 1700000000000 77 (by rfl) (by decide)
  · exact claim_C4_to_epoch_ms.2.2.2 (.vStr "oops") 77 (by decide)

/-- Device config used by the C1 counterexample: host present, login and
password absent. -/
def c1Device : List (String × Value) :=
  [("host", .vStr "192.0.2.1"), ("device_id", .vStr "m1")]

/-- Environment for the C1 counterexample: the probe succeeds. -/
def c1Env : WmEnv :=
  { ping := fun _ _ => true, call := .ok (.vDict []), defaultPort := 4028,
    defaultTimeout := 10 }

/-- Claim C1 counterexample: for a device config whose credentials are
absent but whose host is present, `poll_whatsminer_device` performs the
reachability probe (one ping) before noticing the missing
login/password — the claim's promise of zero network actions for every
config missing host or credentials is false. -/
theorem claim_C1_counterexample :
    poll_whatsminer_device c1Device c1Env =
      ⟨.returned (missingCredsDict c1Device), 1, 0⟩ ∧
    (poll_whatsminer_device c1Device c1Env).pings ≠ 0 := by
  constructor
  · rfl
  · intro h
    rw [show poll_whatsminer_device c1Device c1Env =
      ⟨.returned (missingCredsDict c1Device), 1, 0⟩ from rfl] at h
    simp at h

/-- Claim C1 (corrected statement): only a missing host short-circuits
before any network action; when the host is present the reachability
probe always runs first — a failed probe returns the `Ping failed` error
(even if credentials are also missing), and only after a successful probe
are the credentials checked, returning the `Missing Whatsminer
login/password` error without attempting the authenticated call. -/
theorem claim_C1_config_missing :
    (∀ device env, truthy (getOr device "host" .vNone) = false →
      poll_whatsminer_device device env =
        ⟨.returned (missingHostDict device), 0, 0⟩)
  ∧ (∀ device env port, truthy (getOr device "host" .vNone) = true →
      intOrExc (getOr device "port" (.vInt env.defaultPort)) env.defaultPort = some port →
      env.ping (pyStr (getOr device "host" .vNone)) port = false →
      poll_whatsminer_device device env =
        ⟨.returned (pingFailedDict device (getOr device "host" .vNone)), 1, 0⟩)
  ∧ (∀ device env port, truthy (getOr device "host" .vNone) = true →
      intOrExc (getOr device "port" (.vInt env.defaultPort)) env.defaultPort = some port →
      env.ping (pyStr (getOr device "host" .vNone)) port = true →
      (truthy (getOr device "login" .vNone) = false ∨
        truthy (getOr device "password" .vNone) = false) →
      poll_whatsminer_device device env =
        ⟨.returned (missingCredsDict device), 1, 0⟩) := by
  refine ⟨?_, ?_, ?_⟩
  · intro device env hhost
    rw [poll_whatsminer_device]
    simp [hhost]
  · intro device env port hhost hport hping
    rw [poll_whatsminer_device]
    simp [hhost, hport, hping]
  · intro device env port hhost hport hping hcreds
    rw [poll_whatsminer_device]
    rcases hcreds with hc | hc <;> simp [hhost, hport, hping, hc]

/-- Claim C1 witness: the corrected theorem applied at concrete devices —
a config with no host (no network action at all), and the
credentials-missing config of the counterexample (probe runs, call
skipped). -/
theorem claim_C1_witness :
    poll_whatsminer_device [("device_id", .vStr "m2")] c1Env =
      ⟨.returned (missingHostDict [("device_id", .vStr "m2")]), 0, 0⟩ ∧
    poll_whatsminer_device c1Device c1Env =
      ⟨.returned (missingCredsDict c1Device), 1, 0⟩ := by
  constructor
  · exact claim_C1_config_missing.1 [("device_id", .vStr "m2")] c1Env (by rfl)
  · exact claim_C1_config_missing.2.2 c1Device c1Env 4028 (by rfl) (by rfl) (by rfl)
      (Or.inl (by rfl))

/-- The last known good payload used in the C5 counterexample. -/
def goodPayload : Value := .vDict [("power", .vInt 1000)]

/-- The error payload `poll_whatsminer_device` returns for an unreachable
host, as stored by `_poll_device`. -/
def c5ErrDict : List (String × Value) :=
  [("error", .vStr "Ping failed"), ("device_id", .vStr "m1"), ("host", .vStr "h")]

def c5Key : DeviceKey := ⟨"whatsminer", "m1"⟩

/-- Claim C5 counterexample: after a failed poll (handler returned the
`Ping failed` error dict), the device's LatestStatus entry holds ONLY the
error dict — the last known good payload (its `power` field) is gone, not
reported alongside the error annotation as the claim states. -/
theorem claim_C5_counterexample :
    lookupLatest (poll_device [(c5Key, ⟨"t0", goodPayload⟩)] c5Key
        (.ok (.vDict c5ErrDict)) "t1") c5Key =
      some ⟨"t1", .vDict c5ErrDict⟩ ∧
    dlookup c5ErrDict "power" = none := by
  exact ⟨rfl, rfl⟩

/-- Claim C5 (corrected statement): every poll whose handler returns —
with a success payload or an error dict alike — overwrites the device's
single LatestStatus entry with the new timestamp and payload; an error
result replaces the previous payload entirely rather than augmenting it;
a handler that raises leaves the map unchanged; other devices' entries
are never touched. -/
theorem claim_C5_latest_status :
    (∀ latest key p now,
      lookupLatest (poll_device latest key (.ok p) now) key = some ⟨now, p⟩)
  ∧ (∀ latest key msg now, poll_device latest key (.raises msg) now = latest)
  ∧ (∀ latest key outcome now k', k' ≠ key →
      lookupLatest (poll_device latest key outcome now) k' = lookupLatest latest k') := by
  refine ⟨?_, fun _ _ _ _ => rfl, ?_⟩
  · intro latest key p now
    exact lookupLatest_updLatest_self latest key ⟨now, p⟩
  · intro latest key outcome now k' hk
    cases outcome with
    | raises msg => rfl
    | ok p => exact lookupLatest_updLatest_ne latest key ⟨now, p⟩ k' hk

/-- Claim C5 witness: `claim_C5_latest_status` at the counterexample's
concrete state. -/
theorem claim_C5_witness :
    lookupLatest (poll_device [(c5Key, ⟨"t0", goodPayload⟩)] c5Key
        (.ok (.vDict c5ErrDict)) "t1") c5Key =
      some ⟨"t1", .vDict c5ErrDict⟩ ∧
    lookupLatest (poll_device [(c5Key, ⟨"t0", goodPayload⟩)] ⟨"zont", "z9"⟩
        (.ok .vNone) "t1") c5Key = some ⟨"t0", goodPayload⟩ := by
  constructor
  · exact claim_C5_latest_status.1 [(c5Key, ⟨"t0", goodPayload⟩)] c5Key
      (.vDict c5ErrDict) "t1"
  · rw [claim_C5_latest_status.2.2 [(c5Key, ⟨"t0", goodPayload⟩)] ⟨"zont", "z9"⟩
      (.ok .vNone) "t1" c5Key (by decide)]
    rfl

/-- Claim C7: `_poll_device` catches every handler exception and returns
normally with the map unchanged, so a failing device's tick never
prevents a second, independently scheduled device's tick from running and
recording its data, and never halts the poller. -/
theorem claim_C7_isolation :
    (∀ latest key msg now, poll_device latest key (.raises msg) now = latest)
  ∧ (∀ latest k1 k2 msg p now1 now2, k1 ≠ k2 →
      lookupLatest (poll_device (poll_device latest k1 (.raises msg) now1)
        k2 (.ok p) now2) k2 = some ⟨now2, p⟩)
  ∧ (∀ latest k1 k2 msg p now1 now2, k1 ≠ k2 →
      lookupLatest (poll_device (poll_device latest k1 (.raises msg) now1)
        k2 (.ok p) now2) k1 = lookupLatest latest k1) := by
  refine ⟨fun _ _ _ _ => rfl, ?_, ?_⟩
  · intro latest k1 k2 msg p now1 now2 _
    exact lookupLatest_updLatest_self latest k2 ⟨now2, p⟩
  · intro latest k1 k2 msg p now1 now2 hk
    exact lookupLatest_updLatest_ne latest k2 ⟨now2, p⟩ k1 hk

/-- Claim C7 witness: two concrete devices, the first raising, the second
recording its payload. -/
theorem claim_C7_witness :
    lookupLatest (poll_device (poll_device [] ⟨"whatsminer", "m1"⟩
        (.raises "boom") "t1") ⟨"zont", "z1"⟩ (.ok (.vDict [])) "t2")
      ⟨"zont", "z1"⟩ = some ⟨"t2", .vDict []⟩ := by
  exact claim_C7_isolation.2.1 [] ⟨"whatsminer", "m1"⟩ ⟨"zont", "z1"⟩ "boom"
    (.vDict []) "t1" "t2" (by decide)

/-- Claim C8: for settings that are not a mapping, settings without a
`devices` key, or a `devices` value that is not a mapping, `start`
completes without raising and creates no scheduler and no jobs
(`.ok none`). -/
theorem claim_C8_malformed_settings :
    (∀ settings, (∀ d, settings ≠ .vDict d) → startJobs settings = .ok none)
  ∧ (∀ d, dlookup d "devices" = none → startJobs (.vDict d) = .ok none)
  ∧ (∀ d v, dlookup d "devices" = some v → (∀ dd, v ≠ .vDict dd) →
      startJobs (.vDict d) = .ok none) := by
  refine ⟨?_, ?_, ?_⟩
  · intro settings h
    cases settings with
    | vDict d => exact absurd rfl (h d)
    | vNone => rfl
    | vStr s => rfl
    | vInt n => rfl
    | vNum q => rfl
    | vList l => rfl
  · intro d hd
    have hh : getOr d "devices" (.vDict []) = .vDict [] := by rw [getOr, hd]
    simp only [startJobs, hh]
    rfl
  · intro d v hv hvd
    have hh : getOr d "devices" (.vDict []) = v := by rw [getOr, hv]
    simp only [startJobs, hh]

/-- Claim C8 witness: `claim_C8_malformed_settings` at a non-mapping
settings value, a settings dict without `devices`, and a non-mapping
`devices` value. -/
theorem claim_C8_witness :
    startJobs (.vStr "oops") = .ok none ∧
    startJobs (.vDict [("location", .vNone)]) = .ok none ∧
    startJobs (.vDict [("devices", .vInt 5)]) = .ok none := by
  refine ⟨?_, ?_, ?_⟩
  · exact claim_C8_malformed_settings.1 (.vStr "oops") (fun d h => Value.noConfusion h)
  · exact claim_C8_malformed_settings.2.1 [("location", .vNone)] (by rfl)
  · exact claim_C8_malformed_settings.2.2 [("devices", .vInt 5)] (.vInt 5) (by rfl)
      (fun dd h => Value.noConfusion h)

/-- New settings used by the C9 counterexample: one whatsminer device. -/
def c9NewSettings : Value :=
  .vDict [("devices", .vDict [("whatsminer",
    .vList [.vDict [("device_id", .vStr "m1"), ("host", .vStr "h")]])])]

/-- The single job `start` would derive from `c9NewSettings`. -/
def c9Job : Job := ⟨"whatsminer-m1", "whatsminer", "m1", 30⟩

/-- Claim C9 counterexample: on a poller whose scheduler is `None` (e.g.
started with no configured devices), `update_settings` stores the new
settings but never restarts, so no job is scheduled even though the new
settings derive one job — the schedule is NOT "exactly the one derived
from new_settings". -/
theorem claim_C9_counterexample :
    update_settings ⟨.vDict [], none⟩ c9NewSettings = .ok ⟨c9NewSettings, none⟩ ∧
    startJobs c9NewSettings = .ok (some [c9Job]) ∧
    (none : Option (List Job)) ≠ some [c9Job] := by
  refine ⟨rfl, rfl, by simp⟩

/-- Claim C9 (corrected statement): `update_settings` always replaces the
stored settings; when a scheduler is currently active it performs the
full shutdown-then-restart, after which — provided the restart completes
without raising — the job set is exactly the one `start` derives from the
new settings; a restart whose job construction raises (an unconvertible
interval, or a refresh interval outside the cron seconds range 1–59)
propagates the exception out of `update_settings`; when no scheduler
exists, only the settings are replaced and nothing is scheduled. -/
theorem claim_C9_update_settings :
    (∀ s new s', update_settings s new = .ok s' → s'.settings = new)
  ∧ (∀ s new, s.scheduler = none → update_settings s new = .ok ⟨new, none⟩)
  ∧ (∀ s new junk js, s.scheduler = some junk → startJobs new = .ok (some js) →
      update_settings s new = .ok ⟨new, some js⟩)
  ∧ (∀ s new junk, s.scheduler = some junk → startJobs new = .ok none →
      update_settings s new = .ok ⟨new, none⟩)
  ∧ (∀ s new junk e, s.scheduler = some junk → startJobs new = .error e →
      update_settings s new = .error e) := by
  refine ⟨?_, ?_, ?_, ?_, ?_⟩
  · intro s new s' h
    rw [update_settings] at h
    cases hs : s.scheduler with
    | none =>
      rw [hs] at h
      injection h with h'
      rw [← h']
    | some junk =>
      rw [hs] at h
      rw [start] at h
      cases hjs : startJobs (shutdown ⟨new, some junk⟩).settings with
      | error e => rw [hjs] at h; cases h
      | ok r =>
        cases r with
        | none =>
          rw [hjs] at h
          injection h with h'
          rw [← h']
          rfl
        | some js =>
          rw [hjs] at h
          injection h with h'
          rw [← h']
          rfl
  · intro s new hs
    rw [update_settings, hs]
  · intro s new junk js hs hjs
    rw [update_settings, hs, start]
    have h2 : (shutdown ⟨new, some junk⟩).settings = new := rfl
    rw [h2, hjs]
  · intro s new junk hs hjs
    rw [update_settings, hs, start]
    have h2 : (shutdown ⟨new, some junk⟩).settings = new := rfl
    rw [h2, hjs]
    rfl
  · intro s new junk e hs hjs
    rw [update_settings, hs, start]
    have h2 : (shutdown ⟨new, some junk⟩).settings = new := rfl
    rw [h2, hjs]

/-- Settings whose single device carries `refresh_interval = 120`: the
seconds-range validation of `CronTrigger(second="*/120")` raises, so a
restart on these settings propagates the exception. -/
def c9BadSettings : Value :=
  .vDict [("devices", .vDict [("refresh_interval", .vInt 120),
    ("whatsminer", .vList [.vDict [("device_id", .vStr "m1"), ("host", .vStr "h")]])])]

/-- Claim C9 witness: `claim_C9_update_settings` at concrete states — the
scheduler-absent case of the counterexample, an active-scheduler restart
picking up exactly the derived job, and an active-scheduler restart on an
interval of 120 seconds propagating the cron-validation error. -/
theorem claim_C9_witness :
    update_settings ⟨.vDict [], none⟩ c9NewSettings = .ok ⟨c9NewSettings, none⟩ ∧
    update_settings ⟨.vDict [], some []⟩ c9NewSettings = .ok ⟨c9NewSettings, some [c9Job]⟩ ∧
    update_settings ⟨.vDict [], some []⟩ c9BadSettings =
      .error "ValueError: invalid cron second step" := by
  refine ⟨?_, ?_, ?_⟩
  · exact claim_C9_update_settings.2.1 ⟨.vDict [], none⟩ c9NewSettings rfl
  · exact claim_C9_update_settings.2.2.1 ⟨.vDict [], some []⟩ c9NewSettings [] [c9Job]
      rfl (by rfl)
  · exact claim_C9_update_settings.2.2.2.2 ⟨.vDict [], some []⟩ c9BadSettings []
      "ValueError: invalid cron second step" rfl (by rfl)

/-- Concrete store for the C2 range-query example: metric `m` of device
`(whatsminer, d1)` sampled at ts = 100, 200, 300. -/
def c2Store : List MetricRow :=
  write_metrics (write_metrics (write_metrics [] 100 "whatsminer" "d1" [("m", 7)])
    200 "whatsminer" "d1" [("m", 8)]) 300 "whatsminer" "d1" [("m", 9)]

/-- Claim C2: the range query returns exactly the stored points whose
timestamps lie within the (inclusive) bounds — for samples at
ts = 100, 200, 300, the query with start 150 and end 250 returns exactly
the point at ts = 200 — and a query matching no stored row (unknown
device or metric) returns the empty sequence rather than an error. -/
theorem claim_C2_range_query :
    (get_metric_series c2Store "whatsminer" "d1" "m" (some 150) (some 250) = [(200, 8)])
  ∧ (∀ store dt did metric s e,
      (∀ r ∈ store, ¬(r.device_type = dt ∧ r.device_id = did ∧ r.metric = metric)) →
      get_metric_series store dt did metric s e = [])
  ∧ (∀ store dt did metric s e t v,
      ((t, v) ∈ get_metric_series store dt did metric (some s) (some e) ↔
        (MetricRow.mk t dt did metric v) ∈ store ∧ s ≤ t ∧ t ≤ e)) := by
  refine ⟨by decide, ?_, ?_⟩
  · intro store dt did metric s e h
    rw [get_metric_series]
    have hf : store.filter (fun r => rowMatches r dt did metric s e) = [] := by
      rw [List.filter_eq_nil]
      intro r hr hm
      simp only [rowMatches, Bool.and_eq_true, beq_iff_eq] at hm
      obtain ⟨⟨⟨⟨h1, h2⟩, h3⟩, h4⟩, h5⟩ := hm
      exact h r hr ⟨h1, h2, h3⟩
    rw [hf]
    rfl
  · intro store dt did metric s e t v
    rw [get_metric_series, mem_sortByTs]
    constructor
    · intro hm
      rcases List.mem_map.mp hm with ⟨r, hr, heq⟩
      rcases List.mem_filter.mp hr with ⟨hrs, hmt⟩
      simp only [rowMatches, Bool.and_eq_true, beq_iff_eq, decide_eq_true_eq] at hmt
      obtain ⟨⟨⟨⟨h1, h2⟩, h3⟩, h4⟩, h5⟩ := hmt
      rw [Prod.mk.injEq] at heq
      obtain ⟨ht, hv⟩ := heq
      have hrow : r = ⟨t, dt, did, metric, v⟩ := by
        have he : r = ⟨r.ts, r.device_type, r.device_id, r.metric, r.value⟩ := rfl
        rw [he, ht, h1, h2, h3, hv]
      exact ⟨hrow ▸ hrs, ht ▸ h4, ht ▸ h5⟩
    · rintro ⟨hrs, h4, h5⟩
      apply List.mem_map.mpr
      refine ⟨⟨t, dt, did, metric, v⟩, List.mem_filter.mpr ⟨hrs, ?_⟩, rfl⟩
      simp [rowMatches, h4, h5]

/-- Claim C2 witness: `claim_C2_range_query` applied at the concrete
store — the membership characterization at (200, 8), and the empty result
for the unknown metric `x`. -/
theorem claim_C2_witness :
    ((200 : Int), (8 : ℚ)) ∈ get_metric_series c2Store "whatsminer" "d1" "m"
      (some 150) (some 250) ∧
    get_metric_series c2Store "whatsminer" "d1" "x" (some 150) (some 250) = [] := by
  constructor
  · exact (claim_C2_range_query.2.2 c2Store "whatsminer" "d1" "m" 150 250 200 8).mpr
      ⟨by decide, by decide, by decide⟩
  · exact claim_C2_range_query.2.1 c2Store "whatsminer" "d1" "x" (some 150) (some 250)
      (by decide)

/-- Heap for the C6 counterexample: address 0 holds the payload dict
(`power = 1000`), address 1 the LatestStatus entry dict whose `payload`
field references address 0. -/
def c6Heap : Heap :=
  [[("power", .prim (.vInt 1000))],
   [("timestamp", .prim (.vStr "t0")), ("payload", .ref 0)]]

def c6Latest : List (DeviceKey × Nat) := [(⟨"whatsminer", "m1"⟩, 1)]

/-- The heap after the first `get_latest_payloads` call, with the payload
dict mutated through the returned copy: the copy at address 2 carries
`payload -> ref 0`, so writing `power = 0` at address 0 is a depth-two
mutation of the returned value. -/
def c6Mutated : Heap :=
  setField (get_latest_payloads c6Heap c6Latest).1 0 "power" (.prim (.vInt 0))

/-- Claim C6 counterexample: `payload.copy()` is shallow, so the returned
snapshot's entry (fresh address 2) still references the internal payload
dict (address 0). Mutating the returned value at depth two changes what
the internal map and every subsequent `get_latest_payloads` call observe:
`power` drops from 1000 to 0. -/
theorem claim_C6_counterexample :
    (get_latest_payloads c6Heap c6Latest).2 = [("whatsminer:m1", 2)] ∧
    lookupD (readH (get_latest_payloads c6Heap c6Latest).1 2) "payload" = some (.ref 0) ∧
    payloadField (get_latest_payloads c6Heap c6Latest).1 2 "power" =
      some (.prim (.vInt 1000)) ∧
    payloadField c6Mutated 1 "power" = some (.prim (.vInt 0)) ∧
    payloadField (get_latest_payloads c6Mutated c6Latest).1
      (get_latest_payloads c6Mutated c6Latest).2.head!.2 "power" =
      some (.prim (.vInt 0)) ∧
    some (PVal.prim (.vInt 0)) ≠ some (PVal.prim (.vInt 1000)) := by
  refine ⟨rfl, rfl, rfl, rfl, rfl, ?_⟩
  intro h
  injection h with h1
  injection h1 with h2
  injection h2 with h3
  omega

/-- Claim C6 (corrected statement): `get_latest_payloads` is idempotent —
two calls with no intervening poll observe equal snapshots, keyed
`"device_type:device_id"` — and the copy is defensive one level deep: the
returned entry dicts are fresh objects (addresses outside the input
heap), and writing into any such fresh address leaves every internal
address unchanged; but the copy is shallow, so nested payload objects
remain shared (the counterexample). -/
theorem claim_C6_snapshot :
    (∀ h latest, (∀ p ∈ latest, p.2 < h.length) →
      snapshotContents (get_latest_payloads h latest).1 (get_latest_payloads h latest).2 =
        latest.map (fun q => (q.1.device_type ++ ":" ++ q.1.device_id, readH h q.2)))
  ∧ (∀ h latest, (∀ p ∈ latest, p.2 < h.length) →
      snapshotContents (get_latest_payloads (get_latest_payloads h latest).1 latest).1
          (get_latest_payloads (get_latest_payloads h latest).1 latest).2 =
        snapshotContents (get_latest_payloads h latest).1 (get_latest_payloads h latest).2)
  ∧ (∀ h latest p, p ∈ (get_latest_payloads h latest).2 → h.length ≤ p.2)
  ∧ (∀ (h : Heap) (ext : List HDict) a k v b, h.length ≤ a → b < h.length →
      readH (setField (h ++ ext) a k v) b = readH h b) := by
  refine ⟨?_, ?_, ?_, ?_⟩
  · intro h latest hwf
    exact snapshotContents_spec latest h hwf
  · intro h latest hwf
    obtain ⟨ext, hext⟩ := get_latest_payloads_heap_ext latest h
    have hwf1 : ∀ p ∈ latest, p.2 < (get_latest_payloads h latest).1.length := by
      intro p hp
      rw [hext]
      have := hwf p hp
      simp
      omega
    rw [snapshotContents_spec latest _ hwf1, snapshotContents_spec latest h hwf]
    apply List.map_congr_left
    intro q hq
    rw [hext, readH_append h ext q.2 (hwf q hq)]
  · intro h latest p hp
    exact get_latest_payloads_fresh latest h p hp
  · intro h ext a k v b ha hb
    exact readH_setField_lt h ext a k v b ha hb

/-- Claim C6 witness: `claim_C6_snapshot` at the counterexample heap —
the snapshot mirrors the internal map, a second call observes the same
contents, the returned address is fresh, and a write to the fresh address
leaves the internal entry intact. -/
theorem claim_C6_witness :
    snapshotContents (get_latest_payloads c6Heap c6Latest).1
        (get_latest_payloads c6Heap c6Latest).2 =
      [("whatsminer:m1", readH c6Heap 1)] ∧
    snapshotContents (get_latest_payloads (get_latest_payloads c6Heap c6Latest).1 c6Latest).1
        (get_latest_payloads (get_latest_payloads c6Heap c6Latest).1 c6Latest).2 =
      snapshotContents (get_latest_payloads c6Heap c6Latest).1
        (get_latest_payloads c6Heap c6Latest).2 ∧
    c6Heap.length ≤ 2 ∧
    readH (setField (c6Heap ++ [readH c6Heap 1]) 2 "timestamp" (.prim (.vStr "zz"))) 1 =
      readH c6Heap 1 := by
  refine ⟨?_, ?_, ?_, ?_⟩
  · exact claim_C6_snapshot.1 c6Heap c6Latest (by decide)
  · exact claim_C6_snapshot.2.1 c6Heap c6Latest (by decide)
  · exact claim_C6_snapshot.2.2.1 c6Heap c6Latest ("whatsminer:m1", 2) (by decide)
  · exact claim_C6_snapshot.2.2.2 c6Heap [readH c6Heap 1] 2 "timestamp"
      (.prim (.vStr "zz")) 1 (by decide) (by decide)
